import Mathlib

/-!
# Crash Street Boys — verification of the round engine

Shallow embedding of the crash-game round engine. The primary model
(`CrashStreet`) follows the real-time Socket.IO server (`startGame`, `tick`,
`crash`, `addToHistory`, the `PLACE_BET` / `CASH_OUT` socket handlers); the
secondary model (`CrashStreet.GameServer`) follows the browser-side mock
`GameServer` class, the only component that holds a user balance
(`placeBet` debits it, `_crash` settles `totalProfit`).

JavaScript numbers are modeled as `ℚ`; `Math.floor` is `Int.floor`;
JavaScript `Map` (insertion-ordered, set replaces in place) is modeled as an
association list.
-/

namespace CrashStreet

/-- JS `Map.set`: replace the value in place if the key is present,
otherwise append at the end (JS maps preserve insertion order). -/
def mapSet {κ β : Type} [BEq κ] (m : List (κ × β)) (k : κ) (v : β) :
    List (κ × β) :=
  match m with
  | [] => [(k, v)]
  | (k', v') :: rest =>
      if k' == k then (k, v) :: rest else (k', v') :: mapSet rest k v

/-- JS `Map.has`. -/
def mapHas {κ β : Type} [BEq κ] (m : List (κ × β)) (k : κ) : Bool :=
  (m.lookup k).isSome

/-- One entry of `activeBets`: `{ amount, cashedOut, profit, username }`. -/
structure Bet where
  amount : ℚ
  cashedOut : Bool
  profit : ℚ
  username : String
deriving DecidableEq, Repr

/-- One element of the `results` array built by `crash()`. -/
structure SettlementResult where
  socketId : String
  username : String
  amount : ℚ
  result : String
  profit : ℚ
deriving DecidableEq, Repr

/-- The server's `gameState` object together with the `activeBets` map.
`gameId`/`startTime` only feed logging and event payloads that no claim
touches, so they are omitted; `history` entries keep only the crash point
(the `timestamp` field is wall-clock noise no claim mentions). -/
structure GameState where
  running : Bool
  multiplier : ℚ
  crashPoint : ℚ
  crashed : Bool
  history : List ℚ
  activeBets : List (String × Bet)
deriving DecidableEq, Repr

/-- `CONFIG.tickRate` (ms between ticks). -/
def tickRate : ℚ := 30

/-- `CONFIG.growthRate`. -/
def growthRate : ℚ := 15 / 100

/-- Crash-point computation inside `startGame`:
`crashPoint = 0.99 / (1 - r)`, clamped below at `1.00`, then capped by
`Math.min(·, 1000)`. -/
def crashPointCalc (r : ℚ) : ℚ :=
  let cp := 99 / 100 / (1 - r)
  let cp := if cp < 1 then 1 else cp
  min cp 1000

/-- `startGame()` with the round's random draw `r` made explicit:
sets `running`, resets `multiplier` to `1.00`, clears `crashed`, draws the
crash point, and clears `activeBets`. -/
def startGame (s : GameState) (r : ℚ) : GameState :=
  { s with
    running := true
    multiplier := 1
    crashed := false
    crashPoint := crashPointCalc r
    activeBets := [] }

/-- One tick's multiplier update:
`multiplier += multiplier * CONFIG.growthRate * (CONFIG.tickRate / 1000)`. -/
def tickStep (m : ℚ) : ℚ :=
  m + m * growthRate * (tickRate / 1000)

/-- `addToHistory(crashPoint)`: `unshift` at the front, `pop` the last
element once the length exceeds 50. -/
def addToHistory (h : List ℚ) (cp : ℚ) : List ℚ :=
  let h' := cp :: h
  if h'.length > 50 then h'.dropLast else h'

/-- The per-bet branch of the `results` loop in `crash()`. -/
def settleBet (socketId : String) (b : Bet) : SettlementResult :=
  if b.cashedOut then
    { socketId := socketId, username := b.username, amount := b.amount
      result := "won", profit := b.profit }
  else
    { socketId := socketId, username := b.username, amount := b.amount
      result := "lost", profit := -b.amount }

/-- `crash()`: stops the loop (`running := false`, `crashed := true`),
builds the settlement `results` over `activeBets`, appends the crash point
to history, and broadcasts `GAME_CRASHED { crashPoint, results }` —
returned here as the second component.  Note the function never writes
`gameState.multiplier`. -/
def crash (s : GameState) : GameState × (ℚ × List SettlementResult) :=
  let results := s.activeBets.map fun p => settleBet p.1 p.2
  ({ s with
      running := false
      crashed := true
      history := addToHistory s.history s.crashPoint },
   (s.crashPoint, results))

/-- What one `tick()` call broadcasts. -/
inductive TickEffect where
  | none
  | tickEvent (multiplier : ℚ)
  | crashEvent (payload : ℚ × List SettlementResult)
deriving DecidableEq, Repr

/-- `tick()`: early-returns unless `running`; otherwise applies the
multiplier update, then either calls `crash()` (when the new multiplier has
reached the crash point) or emits `TICK`. -/
def tick (s : GameState) : GameState × TickEffect :=
  if s.running then
    let m := tickStep s.multiplier
    let s' := { s with multiplier := m }
    if s'.crashPoint ≤ m then
      let c := crash s'
      (c.1, .crashEvent c.2)
    else
      (s', .tickEvent m)
  else
    (s, .none)

/-- The state after `n` consecutive `tick()` calls. -/
def ticks (s : GameState) : ℕ → GameState
  | 0 => s
  | n + 1 => (tick (ticks s n)).1

/-- The pure multiplier sequence: value after `n` ticks starting from the
round-start value `1.00`. -/
def multSeq : ℕ → ℚ
  | 0 => 1
  | n + 1 => tickStep (multSeq n)

/-- Outcome of the `PLACE_BET` socket handler (`ERROR msg` vs
`BET_CONFIRMED`). -/
inductive PlaceBetOutcome where
  | rejected (msg : String)
  | confirmed (amount : ℚ)
deriving DecidableEq, Repr

/-- The `PLACE_BET` handler: rejects when the round is not running or
already crashed, when the socket already holds a bet, or when the stake is
missing/below the minimum of 10; otherwise records the bet. -/
def placeBet (s : GameState) (socketId : String) (amount : ℚ)
    (username : String) : GameState × PlaceBetOutcome :=
  if s.running = false ∨ s.crashed = true then
    (s, .rejected "Cannot place bet at this time")
  else if mapHas s.activeBets socketId then
    (s, .rejected "You already have an active bet")
  else if amount = 0 ∨ amount < 10 then
    (s, .rejected "Minimum bet is 10")
  else
    ({ s with
        activeBets := mapSet s.activeBets socketId
          { amount := amount, cashedOut := false, profit := 0
            username := username } },
     .confirmed amount)

/-- Outcome of the `CASH_OUT` socket handler. -/
inductive CashOutOutcome where
  | gameNotActive
  | noActiveBet
  | success (multiplier : ℚ) (winAmount : ℤ) (profit : ℚ)
deriving DecidableEq, Repr

/-- The `CASH_OUT` handler: rejects when the round is not running or has
crashed, or when the socket has no live non-cashed-out bet; otherwise reads
`gameState.multiplier` once, computes
`winAmount = Math.floor(bet.amount * multiplier)`,
`profit = winAmount - bet.amount`, marks the bet cashed out, and emits
`CASHOUT_SUCCESS { multiplier, winAmount, profit }`. -/
def cashOut (s : GameState) (socketId : String) :
    GameState × CashOutOutcome :=
  if s.running = false ∨ s.crashed = true then
    (s, .gameNotActive)
  else
    match s.activeBets.lookup socketId with
    | Option.none => (s, .noActiveBet)
    | Option.some b =>
        if b.cashedOut then
          (s, .noActiveBet)
        else
          let winAmount : ℤ := Rat.floor (b.amount * s.multiplier)
          let profit : ℚ := (winAmount : ℚ) - b.amount
          ({ s with
              activeBets := mapSet s.activeBets socketId
                { b with cashedOut := true, profit := profit } },
           .success s.multiplier winAmount profit)

/-- History contents after a sequence of completed rounds, oldest first:
each round's crash point goes through `addToHistory` in order, starting
from the empty history. -/
def histRounds (rounds : List ℚ) : List ℚ :=
  rounds.foldl addToHistory []

/-- A concrete idle state (fresh server before any round). -/
def sampleIdle : GameState :=
  { running := false, multiplier := 1, crashPoint := 0, crashed := false
    history := [], activeBets := [] }

/-- A concrete mid-round state: multiplier 2.50, one live bet of 100. -/
def sampleRunning : GameState :=
  { running := true, multiplier := 5 / 2, crashPoint := 3, crashed := false
    history := [], activeBets :=
      [("alice", { amount := 100, cashedOut := false, profit := 0
                   username := "Alice" })] }

/-- A concrete post-crash state for the same round: the bet of
`sampleRunning` was never cashed out and the round has crashed. -/
def sampleCrashed : GameState :=
  { running := false, multiplier := 301 / 100, crashPoint := 3
    crashed := true, history := [3], activeBets :=
      [("alice", { amount := 100, cashedOut := false, profit := 0
                   username := "Alice" })] }

namespace GameServer

/-- The mock server's user record (the only place a balance lives);
`referralCode`/`username` feed no claim and are omitted. -/
structure User where
  balance : ℚ
  totalProfit : ℚ
deriving DecidableEq, Repr

/-- A bet in the mock server's `bets` map (`gameId -> bet`). -/
structure MBet where
  amount : ℚ
  cashedOut : Bool
  profit : ℚ
deriving DecidableEq, Repr

/-- The mock `GameServer`'s `_state`: the `user`, the `game` object and the
`bets` map keyed by game id (a fresh id per round; old entries linger but
are never read again). -/
structure MState where
  user : Option User
  running : Bool
  multiplier : ℚ
  crashPoint : ℚ
  crashed : Bool
  gameId : ℕ
  bets : List (ℕ × MBet)
  history : List (ℚ × ℚ × String)
deriving DecidableEq, Repr

/-- Outcome of `GameServer.placeBet`. -/
inductive MPlaceBetOutcome where
  | rejected (msg : String)
  | confirmed (amount : ℚ)
deriving DecidableEq, Repr

/-- `GameServer.placeBet(amount)`: requires a logged-in user, rejects a
stake over the balance (`"Insufficient funds"`) or under 10
(`"Min bet 10"`); on success debits the balance and records the bet under
the current game id in the same step. -/
def placeBet (s : MState) (amount : ℚ) : MState × MPlaceBetOutcome :=
  match s.user with
  | Option.none => (s, .rejected "Login required")
  | Option.some u =>
      if u.balance < amount then
        (s, .rejected "Insufficient funds")
      else if amount < 10 then
        (s, .rejected "Min bet 10")
      else
        ({ s with
            user := Option.some { u with balance := u.balance - amount }
            bets := mapSet s.bets s.gameId
              { amount := amount, cashedOut := false, profit := 0 } },
         .confirmed amount)

/-- Mock `_addToHistory(mult, profit, status)`. -/
def addToHistoryM (h : List (ℚ × ℚ × String)) (e : ℚ × ℚ × String) :
    List (ℚ × ℚ × String) :=
  let h' := e :: h
  if h'.length > 50 then h'.dropLast else h'

/-- Mock `_crash()`: stops the round, looks up the current game's bet; a
live non-cashed-out bet loses (`totalProfit -= amount`, history entry
`lost`), a cashed-out bet just records its `won` history entry, no bet
records `none`.  The user's `balance` is never touched here — the stake
was already debited at placement. -/
def crashM (s : MState) : MState :=
  let finalCrash := s.crashPoint
  let s' := { s with running := false, crashed := true }
  match s'.bets.lookup s'.gameId with
  | Option.some b =>
      if b.cashedOut = false then
        { s' with
            user := s'.user.map fun u =>
              { u with totalProfit := u.totalProfit - b.amount }
            history := addToHistoryM s'.history (finalCrash, -b.amount, "lost") }
      else
        { s' with
            history := addToHistoryM s'.history (finalCrash, b.profit, "won") }
  | Option.none =>
      { s' with
          history := addToHistoryM s'.history (finalCrash, 0, "none") }

/-- A concrete mock-server state: logged-in user with the starting
balance 5000, round running. -/
def mockSample : MState :=
  { user := Option.some { balance := 5000, totalProfit := 0 }
    running := true, multiplier := 1, crashPoint := 2, crashed := false
    gameId := 7, bets := [], history := [] }

end GameServer

/-! ## Helper lemmas -/

theorem crashPointCalc_eq_clamp (r : ℚ) :
    crashPointCalc r = min (max (99 / 100 / (1 - r)) 1) 1000 := by
  simp only [crashPointCalc]
  rcases lt_or_le (99 / 100 / (1 - r)) 1 with h | h
  · rw [if_pos h, max_eq_right h.le]
  · rw [if_neg (not_lt.mpr h), max_eq_left h]

theorem one_le_crashPointCalc (r : ℚ) : 1 ≤ crashPointCalc r := by
  rw [crashPointCalc_eq_clamp]
  exact le_min (le_max_right _ _) (by norm_num)

theorem crashPointCalc_le_cap (r : ℚ) : crashPointCalc r ≤ 1000 := by
  rw [crashPointCalc_eq_clamp]
  exact min_le_right _ _

theorem lookup_mapSet_self {κ β : Type} [BEq κ] [LawfulBEq κ]
    (m : List (κ × β)) (k : κ) (v : β) :
    (mapSet m k v).lookup k = Option.some v := by
  induction m with
  | nil => simp [mapSet, List.lookup]
  | cons p t ih =>
      obtain ⟨k', v'⟩ := p
      by_cases h : k' = k
      · subst h
        simp [mapSet, List.lookup]
      · have hbf : (k == k') = false := by
          simp only [beq_eq_false_iff_ne, ne_eq]
          exact fun hh => h hh.symm
        simp only [mapSet]
        rw [if_neg (by simpa using h)]
        simp [List.lookup, hbf, ih]

theorem mapHas_mapSet_self {κ β : Type} [BEq κ] [LawfulBEq κ]
    (m : List (κ × β)) (k : κ) (v : β) :
    mapHas (mapSet m k v) k = true := by
  simp [mapHas, lookup_mapSet_self]

theorem tick_of_not_running (s : GameState) (h : s.running = false) :
    tick s = (s, TickEffect.none) := by
  unfold tick
  rw [if_neg (by simp [h])]

theorem cashOut_success_spec (s : GameState) (sid : String)
    (s' : GameState) (M : ℚ) (W : ℤ) (P : ℚ)
    (h : cashOut s sid = (s', CashOutOutcome.success M W P)) :
    M = s.multiplier ∧
    ∃ b, s.activeBets.lookup sid = Option.some b ∧ b.cashedOut = false ∧
      W = Rat.floor (b.amount * M) ∧ P = (W : ℚ) - b.amount := by
  unfold cashOut at h
  by_cases hg : s.running = false ∨ s.crashed = true
  · rw [if_pos hg] at h
    simp at h
  · rw [if_neg hg] at h
    cases hb : s.activeBets.lookup sid with
    | none => simp only [hb] at h; simp at h
    | some b =>
        simp only [hb] at h
        by_cases hc : b.cashedOut = true
        · simp only [if_pos hc] at h; simp at h
        · simp only [if_neg hc] at h
          have hcf : b.cashedOut = false := by simpa using hc
          simp only [Prod.mk.injEq, CashOutOutcome.success.injEq] at h
          obtain ⟨-, hM, hW, hP⟩ := h
          subst hM hW hP
          exact ⟨rfl, b, rfl, hcf, rfl, rfl⟩

/-! ## Claims -/

/-- **C2.** For every random draw `r` in `[0,1)`, the crash target drawn by
`startGame` equals `0.99 / (1 - r)` clamped below at `1.00` and above at
the cap `1000`, so it always satisfies `1.00 ≤ target ≤ 1000`. -/
theorem startGame_crashPoint_clamped (s : GameState) (r : ℚ)
    (h0 : 0 ≤ r) (h1 : r < 1) :
    (startGame s r).crashPoint = min (max (99 / 100 / (1 - r)) 1) 1000 ∧
    1 ≤ (startGame s r).crashPoint ∧ (startGame s r).crashPoint ≤ 1000 :=
  ⟨crashPointCalc_eq_clamp r, one_le_crashPointCalc r, crashPointCalc_le_cap r⟩

/-- Witness for C2 at `r = 1/2`. -/
theorem startGame_crashPoint_clamped_witness :
    (startGame sampleIdle (1 / 2)).crashPoint =
      min (max (99 / 100 / (1 - 1 / 2)) 1) 1000 ∧
    1 ≤ (startGame sampleIdle (1 / 2)).crashPoint ∧
    (startGame sampleIdle (1 / 2)).crashPoint ≤ 1000 :=
  startGame_crashPoint_clamped sampleIdle (1 / 2) (by norm_num) (by norm_num)

/-- **C1.** A successful `CASH_OUT` reads the round's multiplier once: the
returned multiplier is exactly the state's current multiplier, and with the
bet's stake `S` the returned `winAmount` equals `⌊S * M⌋` computed from
that same single read, with `profit = winAmount - S`. -/
theorem cashOut_payout_formula (s : GameState) (sid : String)
    (s' : GameState) (M : ℚ) (W : ℤ) (P : ℚ)
    (h : cashOut s sid = (s', CashOutOutcome.success M W P)) :
    M = s.multiplier ∧
    ∃ b, s.activeBets.lookup sid = Option.some b ∧ b.cashedOut = false ∧
      W = Rat.floor (b.amount * M) ∧ P = (W : ℚ) - b.amount :=
  cashOut_success_spec s sid s' M W P h

/-- Witness for C1: the spec's example — stake 100 at multiplier 2.50
yields `winAmount 250`, `profit 150`. -/
theorem cashOut_payout_formula_witness :
    (5 / 2 : ℚ) = sampleRunning.multiplier ∧
    ∃ b, sampleRunning.activeBets.lookup "alice" = Option.some b ∧
      b.cashedOut = false ∧
      (250 : ℤ) = Rat.floor (b.amount * (5 / 2 : ℚ)) ∧
      (150 : ℚ) = ((250 : ℤ) : ℚ) - b.amount :=
  cashOut_payout_formula sampleRunning "alice"
    { running := true, multiplier := 5 / 2, crashPoint := 3, crashed := false
      history := [], activeBets :=
        [("alice", { amount := 100, cashedOut := true, profit := 150
                     username := "Alice" })] }
    (5 / 2) 250 150 (by
      simp [cashOut, sampleRunning, List.lookup, mapSet]
      norm_num [Rat.floor_def'])

/-- **C4.** Once the round has crashed, every `CASH_OUT` fails with the
round-not-running rejection and leaves the state unchanged; a cash-out
succeeds if and only if it is accepted strictly before the crash
transition (round running, not crashed, live non-cashed-out bet); the
crash transition enters `CRASHED` and, once the round is no longer
running, `tick` is a no-op, so there is no retroactive reopening. -/
theorem cashOut_rejected_after_crash (s : GameState) (sid : String) :
    (s.crashed = true → cashOut s sid = (s, CashOutOutcome.gameNotActive)) ∧
    ((∃ s' M W P, cashOut s sid = (s', CashOutOutcome.success M W P)) ↔
      (s.running = true ∧ s.crashed = false ∧
        ∃ b, s.activeBets.lookup sid = Option.some b ∧
          b.cashedOut = false)) ∧
    ((crash s).1.crashed = true ∧ (crash s).1.running = false) ∧
    (s.running = false → tick s = (s, TickEffect.none)) := by
  refine ⟨?_, ?_, ⟨rfl, rfl⟩, tick_of_not_running s⟩
  · intro hc
    unfold cashOut
    rw [if_pos (Or.inr hc)]
  · constructor
    · rintro ⟨s', M, W, P, h⟩
      unfold cashOut at h
      by_cases hg : s.running = false ∨ s.crashed = true
      · rw [if_pos hg] at h; simp at h
      · push_neg at hg
        obtain ⟨hr, hc⟩ := hg
        refine ⟨by simpa using hr, by simpa using hc, ?_⟩
        rw [if_neg (by simp [hr, hc])] at h
        cases hb : s.activeBets.lookup sid with
        | none => simp only [hb] at h; simp at h
        | some b =>
            simp only [hb] at h
            by_cases hco : b.cashedOut = true
            · simp only [if_pos hco] at h; simp at h
            · exact ⟨b, rfl, by simpa using hco⟩
    · rintro ⟨hr, hc, b, hb, hco⟩
      unfold cashOut
      rw [if_neg (by simp [hr, hc])]
      simp only [hb, if_neg (by simp [hco] :
        ¬b.cashedOut = true)]
      exact ⟨_, _, _, _, rfl⟩

/-- Witness for C4 at a concrete crashed state. -/
theorem cashOut_rejected_after_crash_witness :
    cashOut sampleCrashed "alice" =
      (sampleCrashed, CashOutOutcome.gameNotActive) :=
  (cashOut_rejected_after_crash sampleCrashed "alice").1 rfl

/-- **C5.** A participant holds at most one live bet per round: while the
round is open, a `PLACE_BET` from a socket that already has an active bet
is rejected with the duplicate-bet error and the state (ledger included)
is returned unchanged; in particular a second `PLACE_BET` right after a
successful one is so rejected. -/
theorem placeBet_duplicate_rejected (s : GameState) (sid : String)
    (amount amount2 : ℚ) (username username2 : String) :
    (s.running = true → s.crashed = false →
      mapHas s.activeBets sid = true →
      placeBet s sid amount username =
        (s, PlaceBetOutcome.rejected "You already have an active bet")) ∧
    (∀ s1 a, placeBet s sid amount username =
        (s1, PlaceBetOutcome.confirmed a) →
      placeBet s1 sid amount2 username2 =
        (s1, PlaceBetOutcome.rejected "You already have an active bet")) := by
  constructor
  · intro hr hc hhas
    unfold placeBet
    rw [if_neg (by simp [hr, hc]), if_pos hhas]
  · intro s1 a h
    unfold placeBet at h
    by_cases hg : s.running = false ∨ s.crashed = true
    · rw [if_pos hg] at h; simp at h
    · push_neg at hg
      obtain ⟨hr, hc⟩ := hg
      rw [if_neg (by simp [hr, hc])] at h
      by_cases hhas : mapHas s.activeBets sid = true
      · rw [if_pos hhas] at h; simp at h
      · rw [if_neg hhas] at h
        by_cases hmin : amount = 0 ∨ amount < 10
        · rw [if_pos hmin] at h; simp at h
        · rw [if_neg hmin] at h
          simp only [Prod.mk.injEq] at h
          obtain ⟨hs1, -⟩ := h
          subst hs1
          unfold placeBet
          rw [if_neg (by simp [hr, hc]),
            if_pos (mapHas_mapSet_self s.activeBets sid _)]

/-- Witness for C5: placing a second bet right after a successful first
one on a freshly started round is rejected with the duplicate error. -/
theorem placeBet_duplicate_rejected_witness :
    placeBet (placeBet (startGame sampleIdle (1 / 2)) "s1" 100 "P").1
        "s1" 50 "P" =
      ((placeBet (startGame sampleIdle (1 / 2)) "s1" 100 "P").1,
        PlaceBetOutcome.rejected "You already have an active bet") :=
  (placeBet_duplicate_rejected (startGame sampleIdle (1 / 2)) "s1"
      100 50 "P" "P").2
    (placeBet (startGame sampleIdle (1 / 2)) "s1" 100 "P").1 100 (by
      simp [placeBet, startGame, sampleIdle, mapHas, mapSet, List.lookup]
      norm_num)

/-- **C6.** On the balance-holding server, `placeBet` with a stake over
the user's balance, or below the minimum of 10, returns the corresponding
rejection (`"Insufficient funds"` / `"Min bet 10"`) with the state — both
balance and ledger — unchanged; on success the single returned state
simultaneously carries the debited balance and the recorded bet, so no
state exists in which the bet is recorded without the matching debit. -/
theorem mock_placeBet_validates (s : GameServer.MState)
    (u : GameServer.User) (amount : ℚ) (hu : s.user = Option.some u) :
    (u.balance < amount →
      GameServer.placeBet s amount =
        (s, GameServer.MPlaceBetOutcome.rejected "Insufficient funds")) ∧
    (amount ≤ u.balance → amount < 10 →
      GameServer.placeBet s amount =
        (s, GameServer.MPlaceBetOutcome.rejected "Min bet 10")) ∧
    (amount ≤ u.balance → 10 ≤ amount →
      GameServer.placeBet s amount =
        ({ s with
            user := Option.some { u with balance := u.balance - amount }
            bets := mapSet s.bets s.gameId
              { amount := amount, cashedOut := false, profit := 0 } },
          GameServer.MPlaceBetOutcome.confirmed amount)) := by
  refine ⟨?_, ?_, ?_⟩
  · intro hover
    unfold GameServer.placeBet
    simp only [hu]
    rw [if_pos hover]
  · intro hle hmin
    unfold GameServer.placeBet
    simp only [hu]
    rw [if_neg (not_lt.mpr hle), if_pos hmin]
  · intro hle hmin
    unfold GameServer.placeBet
    simp only [hu]
    rw [if_neg (not_lt.mpr hle), if_neg (not_lt.mpr hmin)]

/-- Witness for C6: a stake of 6000 against the starting balance 5000 is
rejected as insufficient and the state is unchanged. -/
theorem mock_placeBet_validates_witness :
    GameServer.placeBet GameServer.mockSample 6000 =
      (GameServer.mockSample,
        GameServer.MPlaceBetOutcome.rejected "Insufficient funds") :=
  (mock_placeBet_validates GameServer.mockSample
      { balance := 5000, totalProfit := 0 } 6000 rfl).1 (by norm_num)

theorem settleBet_socketId (sid : String) (b : Bet) :
    (settleBet sid b).socketId = sid := by
  unfold settleBet
  split <;> rfl

theorem filter_settle_of_not_mem (m : List (String × Bet)) (sid : String)
    (h : sid ∉ m.map Prod.fst) :
    (m.map fun p => settleBet p.1 p.2).filter
      (fun res => res.socketId == sid) = [] := by
  induction m with
  | nil => rfl
  | cons p t ih =>
      simp only [List.map_cons, List.mem_cons, not_or] at h
      obtain ⟨h1, h2⟩ := h
      have hcond : ((settleBet p.1 p.2).socketId == sid) = false := by
        rw [settleBet_socketId]
        exact beq_eq_false_iff_ne.mpr fun hh => h1 hh.symm
      simp only [List.map_cons, List.filter_cons, hcond]
      simpa using ih h2

theorem filter_settle_of_mem (m : List (String × Bet)) (sid : String)
    (b : Bet) (hnd : (m.map Prod.fst).Nodup) (hmem : (sid, b) ∈ m) :
    (m.map fun p => settleBet p.1 p.2).filter
      (fun res => res.socketId == sid) = [settleBet sid b] := by
  induction m with
  | nil => cases hmem
  | cons p t ih =>
      simp only [List.map_cons, List.nodup_cons] at hnd
      obtain ⟨hp, hndt⟩ := hnd
      rcases List.mem_cons.mp hmem with heq | hmem2
      · subst heq
        simp only [List.map_cons, List.filter_cons]
        rw [if_pos (by simp [settleBet_socketId])]
        rw [filter_settle_of_not_mem t sid hp]
      · have hsid : sid ∈ t.map Prod.fst :=
          List.mem_map.mpr ⟨(sid, b), hmem2, rfl⟩
        have hne : p.1 ≠ sid := fun hh => hp (hh ▸ hsid)
        have hcond : ((settleBet p.1 p.2).socketId == sid) = false := by
          rw [settleBet_socketId]
          exact beq_eq_false_iff_ne.mpr hne
        simp only [List.map_cons, List.filter_cons, hcond]
        simpa using ih hndt hmem2

/-- **C3.** At crash settlement, every live bet that was never cashed out
is settled exactly once with `profit = -stake`: the `results` list built
by `crash()` contains exactly one entry for that socket, carrying
`result = "lost"` and `profit = -amount`; after `crash()` the round is no
longer running (and `tick`, the only caller of `crash`, is a no-op on a
non-running round, so no second settlement can occur); the next
`startGame` clears the ledger; and on the balance-holding mock server the
crash settlement never touches the user's balance — the stake was already
debited at placement. -/
theorem crash_settles_lost_bets_once (s : GameState) (sid : String)
    (b : Bet) (hnd : (s.activeBets.map Prod.fst).Nodup)
    (hmem : (sid, b) ∈ s.activeBets) (hco : b.cashedOut = false) :
    ((crash s).2.2.filter (fun res => res.socketId == sid) =
      [{ socketId := sid, username := b.username, amount := b.amount
         result := "lost", profit := -b.amount }]) ∧
    (crash s).1.running = false ∧ (crash s).1.crashed = true ∧
    (∀ s2 : GameState, s2.running = false →
      tick s2 = (s2, TickEffect.none)) ∧
    (∀ s2 r, (startGame s2 r).activeBets = []) ∧
    (∀ ms : GameServer.MState,
      (GameServer.crashM ms).user.map GameServer.User.balance =
        ms.user.map GameServer.User.balance) := by
  refine ⟨?_, rfl, rfl, tick_of_not_running, fun s2 r => rfl, ?_⟩
  · have hres : (crash s).2.2 =
        s.activeBets.map fun p => settleBet p.1 p.2 := rfl
    rw [hres, filter_settle_of_mem s.activeBets sid b hnd hmem]
    unfold settleBet
    rw [if_neg (by simp [hco])]
  · intro ms
    simp only [GameServer.crashM]
    cases hlk : List.lookup ms.gameId ms.bets with
    | none => simp [hlk]
    | some b2 =>
        by_cases hc2 : b2.cashedOut = false
        · simp only [hlk, hc2, if_true]
          cases ms.user <;> rfl
        · simp only [hlk, if_neg hc2]

/-- Witness for C3: crashing `sampleRunning` settles Alice's live bet of
100 with profit `-100`, exactly once. -/
theorem crash_settles_lost_bets_once_witness :
    (crash sampleRunning).2.2.filter (fun res => res.socketId == "alice") =
      [{ socketId := "alice", username := "Alice", amount := 100
         result := "lost", profit := -100 }] :=
  (crash_settles_lost_bets_once sampleRunning "alice"
      { amount := 100, cashedOut := false, profit := 0
        username := "Alice" }
      (by simp [sampleRunning]) (List.mem_singleton.mpr rfl) rfl).1

theorem addToHistory_eq_take (h : List ℚ) (cp : ℚ)
    (hlen : h.length ≤ 50) : addToHistory h cp = (cp :: h).take 50 := by
  simp only [addToHistory]
  by_cases hgt : (cp :: h).length > 50
  · rw [if_pos hgt, List.dropLast_eq_take]
    have : (cp :: h).length = 51 := by
      simp only [List.length_cons] at hgt ⊢
      omega
    rw [this]
  · rw [if_neg hgt, Eq.comm]
    exact List.take_of_length_le (by omega)

theorem histRounds_closed_form (rounds : List ℚ) :
    histRounds rounds = rounds.reverse.take 50 := by
  induction rounds using List.reverseRecOn with
  | nil => rfl
  | append_singleton l e ih =>
      have hstep : histRounds (l ++ [e]) = addToHistory (histRounds l) e := by
        simp [histRounds, List.foldl_append]
      have hlen : (histRounds l).length ≤ 50 := by
        rw [ih, List.length_take]
        exact min_le_left _ _
      rw [hstep, addToHistory_eq_take _ _ hlen, ih, List.reverse_append]
      simp only [List.reverse_cons, List.reverse_nil, List.nil_append,
        List.singleton_append]
      rw [show (50 : ℕ) = 49 + 1 from rfl, List.take_succ_cons,
        List.take_succ_cons, List.take_take]
      norm_num

/-- **C9.** The history ring holds at most 50 entries in most-recent-first
order: `addToHistory` prepends the new crash point and drops the oldest
once 50 entries exist (so the whole history after any sequence of rounds
is the reversed round sequence truncated to the 50 newest), `crash`
appends exactly the round's crash point, and after 51 rounds the first
round's entry is absent. -/
theorem history_bounded_most_recent_first (rounds : List ℚ) :
    histRounds rounds = rounds.reverse.take 50 ∧
    (histRounds rounds).length ≤ 50 ∧
    (∀ (h : List ℚ) (cp : ℚ), h.length ≤ 50 →
      addToHistory h cp = (cp :: h).take 50) ∧
    (∀ s : GameState,
      (crash s).1.history = addToHistory s.history s.crashPoint) ∧
    (∀ first rest, rounds = first :: rest → rest.length = 50 →
      first ∉ rest → first ∉ histRounds rounds) := by
  refine ⟨histRounds_closed_form rounds, ?_, addToHistory_eq_take,
    fun s => rfl, ?_⟩
  · rw [histRounds_closed_form, List.length_take]
    exact min_le_left _ _
  · intro first rest hr hlen hmem
    subst hr
    rw [histRounds_closed_form, List.reverse_cons,
      List.take_left' (by simp [hlen])]
    simpa using hmem

/-- Witness for C9: after 51 rounds (one `1.5`, then fifty `2`s) the first
round's crash point `1.5` is no longer in the history. -/
theorem history_bounded_most_recent_first_witness :
    (3 / 2 : ℚ) ∉ histRounds ((3 / 2 : ℚ) :: List.replicate 50 2) :=
  (history_bounded_most_recent_first ((3 / 2 : ℚ) :: List.replicate 50 2)).2.2.2.2
    (3 / 2) (List.replicate 50 2) rfl (by simp) (by
      intro hmem
      have := List.eq_of_mem_replicate hmem
      norm_num at this)

/-- **C7, counterexample.** `crash()` does not freeze the stored
multiplier at the crash target: starting a round with draw `r = 1/91`
(target `1.001`), the first tick raises the multiplier to `1.0045`,
triggers the crash, and leaves the stored multiplier at `1.0045`, not at
the target. -/
theorem crash_stored_multiplier_cex :
    (tick (startGame sampleIdle (1 / 91))).1.crashed = true ∧
    (tick (startGame sampleIdle (1 / 91))).1.multiplier ≠
      (tick (startGame sampleIdle (1 / 91))).1.crashPoint := by
  norm_num [tick, startGame, crash, crashPointCalc, tickStep, growthRate,
    tickRate, sampleIdle, addToHistory]

/-- **C7, amended.** When the crash transition fires, the emitted crash
event carries exactly the pre-drawn crash target and the post-crash state
keeps that target in `crashPoint`, but the stored current multiplier
retains the last tick's computed value — which is at least the target,
not equal to it in general. -/
theorem crash_emits_pre_drawn_target (s : GameState)
    (hr : s.running = true) (hcr : s.crashPoint ≤ tickStep s.multiplier) :
    (tick s).1.crashed = true ∧
    (tick s).1.crashPoint = s.crashPoint ∧
    (tick s).2 = TickEffect.crashEvent (s.crashPoint,
      s.activeBets.map fun p => settleBet p.1 p.2) ∧
    (tick s).1.multiplier = tickStep s.multiplier ∧
    s.crashPoint ≤ (tick s).1.multiplier := by
  simp only [tick, hr, if_true]
  rw [if_pos hcr]
  exact ⟨rfl, rfl, rfl, rfl, hcr⟩

/-- Witness for the amended C7 on the `r = 1/91` round. -/
theorem crash_emits_pre_drawn_target_witness :
    (tick (startGame sampleIdle (1 / 91))).1.crashed = true ∧
    (tick (startGame sampleIdle (1 / 91))).1.crashPoint =
      (startGame sampleIdle (1 / 91)).crashPoint ∧
    (tick (startGame sampleIdle (1 / 91))).2 = TickEffect.crashEvent
      ((startGame sampleIdle (1 / 91)).crashPoint,
        (startGame sampleIdle (1 / 91)).activeBets.map
          fun p => settleBet p.1 p.2) ∧
    (tick (startGame sampleIdle (1 / 91))).1.multiplier =
      tickStep (startGame sampleIdle (1 / 91)).multiplier ∧
    (startGame sampleIdle (1 / 91)).crashPoint ≤
      (tick (startGame sampleIdle (1 / 91))).1.multiplier :=
  crash_emits_pre_drawn_target (startGame sampleIdle (1 / 91)) rfl (by
    norm_num [startGame, crashPointCalc, tickStep, growthRate, tickRate,
      sampleIdle])

theorem le_tickStep (m : ℚ) (h : 0 ≤ m) : m ≤ tickStep m := by
  unfold tickStep growthRate tickRate
  nlinarith

theorem tick_multiplier_of_running (s : GameState) (hr : s.running = true) :
    (tick s).1.multiplier = tickStep s.multiplier := by
  simp only [tick, hr, if_true]
  by_cases hc : s.crashPoint ≤ tickStep s.multiplier
  · rw [if_pos hc]; rfl
  · rw [if_neg hc]

/-- **C10, counterexample.** A successful `CASH_OUT` can realize a loss:
the server accepts the fractional stake `10.5` (only `amount < 10` is
checked), and cashing out immediately after round start — at multiplier
exactly `1.00` — returns `winAmount = ⌊10.5⌋ = 10 < 10.5` and
`profit = -0.5 < 0`. -/
theorem cashOut_no_loss_cex :
    (cashOut (placeBet (startGame sampleIdle (1 / 2)) "s1" (21 / 2)
        "P").1 "s1").2 =
      CashOutOutcome.success 1 10 (-(1 / 2)) ∧
    (-(1 / 2) : ℚ) < 0 ∧ ((10 : ℤ) : ℚ) < 21 / 2 := by
  refine ⟨?_, by norm_num, by norm_num⟩
  norm_num [cashOut, placeBet, startGame, crashPointCalc, sampleIdle,
    mapSet, mapHas, List.lookup, Rat.floor_def']

/-- **C10, amended.** For integer stakes a successful `CASH_OUT` never
realizes a loss: the multiplier is set to `1.00` at round start and never
decreases under `tick`, and any accepted cash-out whose bet stake is a
natural number `k` returns the state's multiplier `M` together with
`winAmount ≥ k` and `profit ≥ 0` whenever `M ≥ 1`. -/
theorem cashOut_no_loss_integer_stake :
    (∀ (s : GameState) (r : ℚ), (startGame s r).multiplier = 1) ∧
    (∀ s : GameState, 1 ≤ s.multiplier →
      s.multiplier ≤ (tick s).1.multiplier ∧
      1 ≤ (tick s).1.multiplier) ∧
    (∀ (s : GameState) (sid : String) (s' : GameState) (M : ℚ) (W : ℤ)
        (P : ℚ) (k : ℕ) (b : Bet), 1 ≤ s.multiplier →
      s.activeBets.lookup sid = Option.some b → b.amount = (k : ℚ) →
      cashOut s sid = (s', CashOutOutcome.success M W P) →
      M = s.multiplier ∧ (k : ℚ) ≤ (W : ℚ) ∧ 0 ≤ P) := by
  refine ⟨fun s r => rfl, ?_, ?_⟩
  · intro s h1
    by_cases hr : s.running = true
    · rw [tick_multiplier_of_running s hr]
      have hm := le_tickStep s.multiplier (le_trans zero_le_one h1)
      exact ⟨hm, le_trans h1 hm⟩
    · rw [tick_of_not_running s (by simpa using hr)]
      exact ⟨le_refl _, h1⟩
  · intro s sid s' M W P k b h1 hb hk h
    obtain ⟨hM, b2, hb2, -, hW, hP⟩ := cashOut_success_spec s sid s' M W P h
    rw [hb] at hb2
    obtain rfl : b = b2 := by injection hb2
    have hkW : (k : ℤ) ≤ W := by
      rw [hW]
      refine Rat.le_floor.mpr ?_
      rw [hk, hM]
      push_cast
      exact le_mul_of_one_le_right (by positivity) h1
    have hkWq : (k : ℚ) ≤ (W : ℚ) := by exact_mod_cast hkW
    refine ⟨hM, hkWq, ?_⟩
    rw [hP, hk]
    linarith

/-- Witness for the amended C10: the integer stake 100 cashed out at
multiplier 2.50 wins 250 with nonnegative profit 150. -/
theorem cashOut_no_loss_integer_stake_witness :
    (5 / 2 : ℚ) = sampleRunning.multiplier ∧
    ((100 : ℕ) : ℚ) ≤ ((250 : ℤ) : ℚ) ∧ (0 : ℚ) ≤ 150 :=
  cashOut_no_loss_integer_stake.2.2 sampleRunning "alice"
    { running := true, multiplier := 5 / 2, crashPoint := 3, crashed := false
      history := [], activeBets :=
        [("alice", { amount := 100, cashedOut := true, profit := 150
                     username := "Alice" })] }
    (5 / 2) 250 150 100
    { amount := 100, cashedOut := false, profit := 0, username := "Alice" }
    (by norm_num [sampleRunning])
    (by simp [sampleRunning, List.lookup])
    (by norm_num)
    (by
      simp [cashOut, sampleRunning, List.lookup, mapSet]
      norm_num [Rat.floor_def'])

theorem ticks_succ (s : GameState) (n : ℕ) :
    ticks s (n + 1) = (tick (ticks s n)).1 := rfl

theorem tickStep_eq_mul (m : ℚ) : tickStep m = m * (2009 / 2000) := by
  unfold tickStep growthRate tickRate
  ring

theorem multSeq_eq_pow (n : ℕ) : multSeq n = (2009 / 2000) ^ n := by
  induction n with
  | zero => simp [multSeq]
  | succ n ih => rw [multSeq, tickStep_eq_mul, ih, pow_succ]

theorem multSeq_pos (n : ℕ) : 0 < multSeq n := by
  rw [multSeq_eq_pow]
  positivity

theorem multSeq_strict_mono_step (n : ℕ) : multSeq n < multSeq (n + 1) := by
  have hp := multSeq_pos n
  rw [show multSeq (n + 1) = tickStep (multSeq n) from rfl, tickStep_eq_mul]
  nlinarith

theorem multSeq_reaches_cap : (1000 : ℚ) ≤ multSeq 1539 := by
  rw [multSeq_eq_pow, div_pow, le_div_iff₀ (by positivity)]
  have hn : (1000 * 2000 ^ 1539 : ℕ) ≤ 2009 ^ 1539 := by
    set_option exponentiation.threshold 1600 in
    set_option maxRecDepth 10000 in decide
  exact_mod_cast hn

theorem tick_fst_crashPoint (s : GameState) :
    (tick s).1.crashPoint = s.crashPoint := by
  by_cases hr : s.running = true
  · simp only [tick, hr, if_true]
    by_cases hc : s.crashPoint ≤ tickStep s.multiplier
    · rw [if_pos hc]; rfl
    · rw [if_neg hc]
  · rw [tick_of_not_running s (by simpa using hr)]

theorem ticks_crashPoint (s : GameState) (n : ℕ) :
    (ticks s n).crashPoint = s.crashPoint := by
  induction n with
  | zero => rfl
  | succ n ih => rw [ticks_succ, tick_fst_crashPoint, ih]

theorem tick_running_imp (s : GameState) (hr : s.running = true) :
    ((tick s).1.running = true ∧
      (tick s).1.multiplier = tickStep s.multiplier ∧
      (tick s).1.multiplier < (tick s).1.crashPoint ∧
      (tick s).1.crashed = s.crashed) ∨
    ((tick s).1.running = false ∧ (tick s).1.crashed = true ∧
      (tick s).1.multiplier = tickStep s.multiplier) := by
  simp only [tick, hr, if_true]
  by_cases hc : s.crashPoint ≤ tickStep s.multiplier
  · rw [if_pos hc]
    right
    exact ⟨rfl, rfl, rfl⟩
  · rw [if_neg hc]
    left
    exact ⟨rfl, rfl, not_le.mp hc, rfl⟩

theorem ticks_running_or_crashed (s : GameState) (n : ℕ)
    (h : s.running = true) :
    (ticks s n).running = true ∨ (ticks s n).crashed = true := by
  induction n with
  | zero => exact Or.inl h
  | succ n ih =>
      rw [ticks_succ]
      rcases ih with hr | hc
      · rcases tick_running_imp _ hr with ⟨h1, -, -, -⟩ | ⟨-, h2, -⟩
        · exact Or.inl h1
        · exact Or.inr h2
      · by_cases hr : (ticks s n).running = true
        · rcases tick_running_imp _ hr with ⟨-, -, -, h4⟩ | ⟨-, h2, -⟩
          · exact Or.inr (h4.trans hc)
          · exact Or.inr h2
        · rw [tick_of_not_running _ (by simpa using hr)]
          exact Or.inr hc

theorem ticks_multiplier_startGame (s : GameState) (r : ℚ) (n : ℕ)
    (h : (ticks (startGame s r) n).running = true) :
    (ticks (startGame s r) n).multiplier = multSeq n := by
  induction n with
  | zero => rfl
  | succ n ih =>
      have hrn : (ticks (startGame s r) n).running = true := by
        by_contra hh
        have hf : (ticks (startGame s r) n).running = false := by
          simpa using hh
        rw [ticks_succ, tick_of_not_running _ hf, hf] at h
        cases h
      rw [ticks_succ] at h ⊢
      rcases tick_running_imp _ hrn with ⟨-, hm, -, -⟩ | ⟨hrf, -, -⟩
      · rw [hm, ih hrn]
        rfl
      · rw [hrf] at h
        cases h

/-- **C8.** Starting from `1.00` at round start, the multiplier sequence
under repeated `tick()` is strictly increasing and deterministic in the
tick count alone — after `n` ticks, while still running, the multiplier is
exactly `multSeq n`, where each step applies
`multiplier += multiplier * growthRate * (tickRate / 1000)` — and for any
crash target (always ≤ the cap 1000) the round crashes within 1539
ticks. -/
theorem tick_monotone_reaches_target (s : GameState) (r : ℚ) :
    (∀ n, (ticks (startGame s r) n).running = true →
      (ticks (startGame s r) n).multiplier = multSeq n) ∧
    (∀ n, multSeq (n + 1) = tickStep (multSeq n)) ∧
    (∀ n, multSeq n < multSeq (n + 1)) ∧
    (∃ n, n ≤ 1539 ∧ (ticks (startGame s r) n).crashed = true) := by
  refine ⟨ticks_multiplier_startGame s r, fun n => rfl,
    multSeq_strict_mono_step, 1539, le_refl _, ?_⟩
  rcases ticks_running_or_crashed (startGame s r) 1539 rfl with hr | hc
  · exfalso
    have h1539 : (1539 : ℕ) = 1538 + 1 := by norm_num
    have hrn : (ticks (startGame s r) 1538).running = true := by
      by_contra hh
      have hf : (ticks (startGame s r) 1538).running = false := by
        simpa using hh
      rw [h1539, ticks_succ, tick_of_not_running _ hf, hf] at hr
      cases hr
    rcases tick_running_imp _ hrn with ⟨-, -, hlt, -⟩ | ⟨hrf, -, -⟩
    · rw [← ticks_succ, ← h1539,
        ticks_multiplier_startGame s r 1539 hr, ticks_crashPoint] at hlt
      have hcap : (startGame s r).crashPoint ≤ 1000 :=
        crashPointCalc_le_cap r
      have hreach := multSeq_reaches_cap
      linarith
    · rw [← ticks_succ, ← h1539, hr] at hrf
      cases hrf
  · exact hc

/-- Witness for C8 on a concrete round. -/
theorem tick_monotone_reaches_target_witness :
    (ticks (startGame sampleIdle (1 / 2)) 0).multiplier = multSeq 0 ∧
    multSeq 0 < multSeq 1 :=
  ⟨(tick_monotone_reaches_target sampleIdle (1 / 2)).1 0 rfl,
    (tick_monotone_reaches_target sampleIdle (1 / 2)).2.2.1 0⟩

end CrashStreet
